import Mathlib

/-!
Verification of the streaming STT/TTS WebSocket session protocol of this
repository: the client plugin adapters
(`livekit-plugin-custom-stt/.../stt.py`, `livekit-plugin-custom-tts/.../tts.py`)
and the inference servers (`stt-api/main.py`, `tts-api/main.py`), in both the
`skills-reference` and the top-level copies.

Python code is shallowly embedded: the mutable per-session state becomes a
Lean structure, each coroutine's per-message behaviour becomes a pure step
function, and the send/receive loops become recursive functions over the
finite list of messages they would dequeue or receive.  The opaque ML
inference calls (`model.transcribe`, `synthesize`) are out of scope of the
spec and are passed in as function parameters; everything else is translated
from the source.
-/

/-! ## Chunk codec

`tts-api/main.py`, `synthesize_chunk` (lines 376-378):
`audio_bytes = (audio_arr * 32767).astype(np.int16).tobytes()` and
`stt-api/main.py` (lines 263-266):
`audio_float = audio_np.astype(np.float32) / 32768.0`.

Samples are modelled as exact rationals; `astype(np.int16)` on an in-range
float is a C cast, i.e. truncation toward zero (out-of-range values are
platform-defined in numpy and never arise for inputs in [-1, 1]). -/


/-- Truncation toward zero of a rational, the behaviour of numpy
`astype(np.int16)` on an in-range float value. -/

def truncQ (q : ℚ) : ℤ := if 0 ≤ q then ⌊q⌋ else ⌈q⌉

/-- One sample of `(audio_arr * 32767).astype(np.int16)`
(`tts-api/main.py` line 377). -/

def encode_audio (x : ℚ) : ℤ := truncQ (x * 32767)

/-- One sample of `audio_np.astype(np.float32) / 32768.0`
(`stt-api/main.py` line 266). -/

def decode_audio (n : ℤ) : ℚ := (n : ℚ) / 32768

/-! ## STT client stream state (`stt.py`, class `SpeechStream`)

State visible to `push_frame` / `end_input` / `aclose` in
`src/stt-livekit-plugin/livekit-plugin-custom-stt/livekit/plugins/custom_stt/stt.py`:
the `_closed` flag and the `_audio_queue` of `Optional[rtc.AudioFrame]`
(`None` is the end-of-stream sentinel).  The queue is modelled as the list of
values put on it, in order. -/


structure SttClientState (Frame : Type) where
  closed : Bool
  queue : List (Option Frame)
deriving DecidableEq

/-- Fresh `SpeechStream`: `self._closed = False`, empty `_audio_queue`. -/

def sttClientInit (Frame : Type) : SttClientState Frame := ⟨false, []⟩

/-- `push_frame` (stt.py lines 333-343): `if self._closed: return`, otherwise
the frame is put on the audio queue. -/

def push_frame {Frame : Type} (s : SttClientState Frame) (f : Frame) :
    SttClientState Frame :=
  if s.closed then s else { s with queue := s.queue ++ [some f] }

/-- `end_input` (stt.py lines 350-352): unconditionally
`await self._audio_queue.put(None)`.  There is no `_input_ended` flag in this
file. -/

def end_input {Frame : Type} (s : SttClientState Frame) : SttClientState Frame :=
  { s with queue := s.queue ++ [none] }

/-- `aclose` (stt.py lines 354-372): `if self._closed: return`, else set
`_closed = True` and put one `None` sentinel (task cancellation and the socket
close do not touch the queue). -/

def sttAclose {Frame : Type} (s : SttClientState Frame) : SttClientState Frame :=
  if s.closed then s else { s with closed := true, queue := s.queue ++ [none] }

/-- Number of end-of-stream sentinels on the outbound queue. -/

def countSentinels {Frame : Type} (q : List (Option Frame)) : ℕ :=
  q.countP Option.isNone

/-! ## Client send loops

`SpeechStream._send_loop` (stt.py lines 276-292) and
`ChunkedStream._send_loop` (tts.py lines 217-241).  Each loop repeatedly
dequeues from its outbound queue; the model is a function from the list of
dequeued values (the queue trace, with the session open throughout) to the
list of messages written to the wire, in order. -/


/-- Wire alphabet of the STT client: binary PCM frames, or a JSON
`end_of_stream` control frame (which this client never actually writes). -/

inductive SttWire (Frame : Type) where
  | binary (f : Frame)
  | endOfStream
deriving DecidableEq

/-- Wire alphabet of the TTS client: JSON text fragments and the JSON
`end_of_stream` control frame. -/

inductive TtsWire where
  | textMsg (t : String)
  | endOfStream
deriving DecidableEq

/-- `SpeechStream._send_loop`: on a frame, `await self._ws.send(audio_data)`;
on the `None` sentinel, `break` — nothing is written before exiting. -/

def sttSendLoop {Frame : Type} : List (Option Frame) → List (SttWire Frame)
  | [] => []
  | none :: _ => []
  | some f :: rest => SttWire.binary f :: sttSendLoop rest

/-- `ChunkedStream._send_loop`: on a text fragment, sends the JSON
`{"text": text}` frame; on the `None` sentinel, sends the JSON
`{"type": "end_of_stream"}` frame and breaks. -/

def ttsSendLoop : List (Option String) → List TtsWire
  | [] => []
  | none :: _ => [TtsWire.endOfStream]
  | some t :: rest => TtsWire.textMsg t :: ttsSendLoop rest

/-! ## Client receive loops

`SpeechStream._recv_loop` (stt.py lines 294-331) and
`ChunkedStream._recv_loop` (tts.py lines 243-303).  The loop is modelled as a
function from the finite list of messages the server sends before closing the
connection (the end of the list is the `ConnectionClosed` of `ws.recv`) to
the list of values put on the inbound event queue, in order; `none` is the
terminal sentinel put by the `finally` block. -/


/-- JSON messages the STT server can send, as decoded by the client:
`data.get("type")` is `"final"` (with text and confidence), `"error"`,
`"session_ended"`, or something else. -/

inductive SttServerMsg where
  | final (text : String) (confidence : ℚ)
  | errorMsg (message : String)
  | sessionEnded
  | other (t : String)

/-- A decoded STT transcript result (the fields of the `SpeechEvent`
alternative that depend on the message). -/

structure SttResult where
  text : String
  confidence : ℚ
deriving DecidableEq

/-- `SpeechStream._recv_loop`: `"final"` with non-empty text puts an event on
the queue (`if text:` silently drops empty finals); `"error"` breaks;
`"session_ended"` matches no branch, so the loop just keeps receiving; when
the connection closes, the `except`/`finally` blocks put the `None`
sentinel. -/

def sttRecvLoop : List SttServerMsg → List (Option SttResult)
  | [] => [none]
  | SttServerMsg.final t c :: rest =>
      (if t = "" then [] else [some ⟨t, c⟩]) ++ sttRecvLoop rest
  | SttServerMsg.errorMsg _ :: _ => [none]
  | SttServerMsg.sessionEnded :: rest => sttRecvLoop rest
  | SttServerMsg.other _ :: rest => sttRecvLoop rest

/-- JSON messages the TTS server can send, as decoded by the client:
`"audio"` (with the decoded PCM payload), `"complete"`, `"error"`, anything
else, or a frame that fails to parse as JSON. -/

inductive TtsServerMsg where
  | audio (data : List ℤ)
  | complete
  | errorMsg (message : String)
  | other (t : String)
  | invalidJson

/-- A `SynthesizedAudio` put on the TTS inbound queue: the monotonically
assigned segment id and the decoded int16 samples of the frame. -/

structure TtsResult where
  segmentId : ℕ
  data : List ℤ
deriving DecidableEq

/-- `ChunkedStream._recv_loop` body, carrying the `self._segment_id`
counter: `"audio"` decodes the payload and puts a `SynthesizedAudio`;
`"complete"` and `"error"` break; unknown types and non-JSON frames are
skipped; the `finally` block puts the `None` sentinel. -/

def ttsRecvLoopAux (segId : ℕ) : List TtsServerMsg → List (Option TtsResult)
  | [] => [none]
  | TtsServerMsg.audio d :: rest => some ⟨segId, d⟩ :: ttsRecvLoopAux (segId + 1) rest
  | TtsServerMsg.complete :: _ => [none]
  | TtsServerMsg.errorMsg _ :: _ => [none]
  | TtsServerMsg.other _ :: rest => ttsRecvLoopAux segId rest
  | TtsServerMsg.invalidJson :: rest => ttsRecvLoopAux segId rest

/-- `ChunkedStream._recv_loop`, starting from `self._segment_id = 0`. -/

def ttsRecvLoop (msgs : List TtsServerMsg) : List (Option TtsResult) :=
  ttsRecvLoopAux 0 msgs

/-! ## Sentence splitter (`tts-api/main.py`, `split_into_sentences`, lines 400-424)

`re.split(r'([.!?]+\s+)', text)` with a capturing group returns the pieces of
`text` between the non-overlapping, leftmost matches of the separator
pattern, interleaved with the matched separators themselves.  The pattern
`[.!?]+\s+` has disjoint character classes, so its (greedy) match at a
position is: the maximal non-empty run of sentence terminators followed by
the maximal non-empty run of whitespace.  Python strings are modelled as
`List Char`; the scan is written with a step-count fuel (one character is
consumed per step, so `s.length` fuel always suffices) to keep the function
kernel-reducible. -/


/-- Membership in the `[.!?]` class. -/

def isTermChar (c : Char) : Bool := c = '.' || c = '!' || c = '?'

/-- Membership in the `\s` class.  Python also counts some non-ASCII Unicode
whitespace; the embedding keeps the ASCII portion (all theorems below use
only that this class is disjoint from `[.!?]`). -/

def isSpaceChar (c : Char) : Bool :=
  c = ' ' || c = '\t' || c = '\n' || c = '\r' || c = '\x0b' || c = '\x0c'

/-- Greedy match of `[.!?]+\s+` at the head of `s`: returns the matched
separator and the rest of the string, or `none` when the pattern does not
match here. -/

def matchSep (s : List Char) : Option (List Char × List Char) :=
  let ts := s.takeWhile isTermChar
  let r1 := s.dropWhile isTermChar
  if ts.isEmpty then none
  else
    let ws := r1.takeWhile isSpaceChar
    let r2 := r1.dropWhile isSpaceChar
    if ws.isEmpty then none else some (ts ++ ws, r2)

/-- The `re.split` scan: `acc` holds (reversed) the characters of the piece
currently being built; at each position, if the separator pattern matches,
the piece and the separator are emitted and the scan resumes after the
match, otherwise one character is consumed.  `fuel ≥ s.length` always
suffices since every step consumes at least one character of `s`. -/

def reSplitGo : ℕ → List Char → List Char → List (List Char)
  | _, acc, [] => [acc.reverse]
  | 0, acc, s => [acc.reverse ++ s]
  | fuel + 1, acc, c :: rest =>
      match matchSep (c :: rest) with
      | some (sep, r2) => acc.reverse :: sep :: reSplitGo fuel [] r2
      | none => reSplitGo fuel (c :: acc) rest

/-- `re.split(r'([.!?]+\s+)', text)`: alternating list
`[piece, sep, piece, sep, ..., piece]`. -/

def reSplit (s : List Char) : List (List Char) := reSplitGo s.length [] s

/-- The recombination loop of `split_into_sentences`:
`for i in range(0, len(sentences) - 1, 2): result.append(sentences[i] + sentences[i+1])`
followed by `if len(sentences) % 2 == 1: result.append(sentences[-1])`. -/

def recombinePairs : List (List Char) → List (List Char)
  | t :: sep :: rest => (t ++ sep) :: recombinePairs rest
  | [t] => [t]
  | [] => []

/-- `split_into_sentences` (tts-api/main.py lines 400-424). -/

def split_into_sentences (text : List Char) : List (List Char) :=
  let sentences := reSplit text
  let result := recombinePairs sentences
  if result.isEmpty then [text] else result

/-! ## STT server session handler (`stt-api/main.py`, `websocket_transcribe`)

Two variants exist in the repository: the `skills-reference` copy reads with
`await websocket.receive()` and dispatches on whether the message carries
`"text"` or `"bytes"`; the top-level copy reads with
`await websocket.receive_bytes()` only.  The per-connection loop is modelled
as a function from the list of incoming frames (the end of the list being
the client disconnect) to the list of JSON messages the server sends.  The
external `model.transcribe` call — including the deterministic
int16-decoding and temp-file plumbing in front of it — is a parameter taking
the beam size and the raw buffered bytes, returning segments or raising
(`Except.error` carries `str(e)`). -/


/-- Python `str.strip()` on the character list: drop leading and trailing
whitespace (kernel-reducible, unlike `String.trim`). -/

def pyStrip (s : List Char) : List Char :=
  ((s.dropWhile isSpaceChar).reverse.dropWhile isSpaceChar).reverse

/-- Python `str.strip()` on a `String`. -/

def stripS (s : String) : String := String.mk (pyStrip s.data)

/-- A transcript segment returned by the (external) `model.transcribe`. -/

structure Segment where
  text : String
  start : ℚ
  stop : ℚ
  conf : ℚ
deriving DecidableEq

/-- JSON messages sent by the STT server. -/

inductive SttSrvOut where
  | ready
  | finalMsg (text : String) (start stop conf : ℚ)
  | sessionEnded
  | errorOut (message : String)
deriving DecidableEq

/-- The `{"type": "final", ...}` message for one segment
(`segment.text.strip()` and the timing/confidence fields). -/

def finalOf (seg : Segment) : SttSrvOut :=
  SttSrvOut.finalMsg (stripS seg.text) seg.start seg.stop seg.conf

/-- Incoming WebSocket frames after the handshake, as the server
distinguishes them: a binary frame of audio bytes, or a text frame holding
`{"type": "keepalive"}`, `{"type": "end_of_stream"}`, JSON of another type,
or invalid JSON. -/

inductive SttInFrame where
  | binary (data : List ℕ)
  | keepaliveCtl
  | endOfStreamCtl
  | unknownCtl (t : String)
  | invalidJsonText

/-- `bytes_per_chunk = int(sample_rate * chunk_duration * 2)` with
`chunk_duration = 2.0`. -/

def bytesPerChunk (sr : ℕ) : ℕ := sr * 4

/-- `overlap_bytes = int(sample_rate * 0.5 * 2)`. -/

def overlapBytes (sr : ℕ) : ℕ := sr

/-- One iteration of the `skills-reference` server loop: incoming frame ↦
(messages sent, new audio buffer, whether the loop breaks).  Binary data is
appended to the buffer, and once `bytes_per_chunk` is buffered the first
window is transcribed at `beam_size=3` and the buffer trimmed keeping the
0.5 s overlap (the trim is inside `finally:`, so it happens even when
`transcribe` raises and the error message is sent instead); `keepalive`,
unknown types and invalid JSON are logged and skipped; `end_of_stream`
flushes a non-empty buffer at `beam_size=5`, sends `session_ended`, and
breaks (if the flush raises, the error is sent and the loop continues). -/

def refSttStep (transcribe : ℕ → List ℕ → Except String (List Segment))
    (sr : ℕ) (buf : List ℕ) : SttInFrame → List SttSrvOut × List ℕ × Bool
  | SttInFrame.binary data =>
      let buf2 := buf ++ data
      if bytesPerChunk sr ≤ buf2.length then
        match transcribe 3 (buf2.take (bytesPerChunk sr)) with
        | Except.ok segs =>
            (segs.map finalOf, buf2.drop (bytesPerChunk sr - overlapBytes sr), false)
        | Except.error e =>
            ([SttSrvOut.errorOut e], buf2.drop (bytesPerChunk sr - overlapBytes sr), false)
      else ([], buf2, false)
  | SttInFrame.keepaliveCtl => ([], buf, false)
  | SttInFrame.endOfStreamCtl =>
      if 0 < buf.length then
        match transcribe 5 buf with
        | Except.ok segs => (segs.map finalOf ++ [SttSrvOut.sessionEnded], buf, true)
        | Except.error e => ([SttSrvOut.errorOut e], buf, false)
      else ([SttSrvOut.sessionEnded], buf, true)
  | SttInFrame.unknownCtl _ => ([], buf, false)
  | SttInFrame.invalidJsonText => ([], buf, false)

/-- The `skills-reference` server receive loop over a list of incoming
frames; the list ending without `end_of_stream` is the client disconnect
(`WebSocketDisconnect` → `break`). -/

def refSttLoop (transcribe : ℕ → List ℕ → Except String (List Segment))
    (sr : ℕ) (buf : List ℕ) : List SttInFrame → List SttSrvOut
  | [] => []
  | f :: rest =>
      let r := refSttStep transcribe sr buf f
      if r.2.2 then r.1 else r.1 ++ refSttLoop transcribe sr r.2.1 rest

/-- The whole `skills-reference` handler after a good config: the `ready`
acknowledgement, the loop output, and the close code of the `finally:`
block, `websocket.close(code=1000)`. -/

def refSttHandler (transcribe : ℕ → List ℕ → Except String (List Segment))
    (sr : ℕ) (frames : List SttInFrame) : List SttSrvOut × ℕ :=
  (SttSrvOut.ready :: refSttLoop transcribe sr [] frames, 1000)

/-- `str(KeyError(...))` raised by `websocket.receive_bytes()` when a text
frame arrives (the message dict has no `"bytes"` key); the quotes of the
Python repr are elided. -/

def receiveBytesKeyError : String := "KeyError: bytes"

/-- One iteration of the top-level (`src/stt-livekit-plugin`) server loop:
it reads with `receive_bytes()`, so ANY text frame raises and is answered by
the generic `except` with an error message, then the loop continues — no
keepalive or `end_of_stream` handling exists.  On the binary path the
overlap trim sits after the `try/finally`, so when `transcribe` raises the
buffer is left untrimmed. -/

def oldSttStep (transcribe : ℕ → List ℕ → Except String (List Segment))
    (sr : ℕ) (buf : List ℕ) : SttInFrame → List SttSrvOut × List ℕ × Bool
  | SttInFrame.binary data =>
      let buf2 := buf ++ data
      if bytesPerChunk sr ≤ buf2.length then
        match transcribe 3 (buf2.take (bytesPerChunk sr)) with
        | Except.ok segs =>
            (segs.map finalOf, buf2.drop (bytesPerChunk sr - overlapBytes sr), false)
        | Except.error e => ([SttSrvOut.errorOut e], buf2, false)
      else ([], buf2, false)
  | _ => ([SttSrvOut.errorOut receiveBytesKeyError], buf, false)

/-- The top-level server receive loop. -/

def oldSttLoop (transcribe : ℕ → List ℕ → Except String (List Segment))
    (sr : ℕ) (buf : List ℕ) : List SttInFrame → List SttSrvOut
  | [] => []
  | f :: rest =>
      let r := oldSttStep transcribe sr buf f
      if r.2.2 then r.1 else r.1 ++ oldSttLoop transcribe sr r.2.1 rest

/-! ## TTS server session handler (`tts-api/main.py`, `websocket_synthesize`)

The external synthesis backend (`model.generate`/`model.sample`/`model.tts`)
is a parameter returning a float sample array or raising; `synthesize_chunk`
wraps it, converting to int16 bytes via `encode_audio` and swallowing every
exception into `None`.  The per-connection loop buffers text, feeds complete
sentences (per `split_into_sentences`) to `synthesize_chunk`, and keeps the
trailing incomplete fragment. -/


/-- JSON messages sent by the TTS server (the audio payload travels
base64-encoded; the model keeps the decoded int16 samples). -/

inductive TtsSrvOut where
  | ready (sample_rate : ℕ)
  | audioOut (data : List ℤ)
  | completeMsg
  | errorOut (message : String)
deriving DecidableEq

/-- Incoming frames on the TTS server socket after the handshake: a text
frame with `{"text": ...}`, the two control types, JSON of another shape,
invalid JSON, or a binary frame (logged and skipped). -/

inductive TtsInFrame where
  | textJson (t : String)
  | keepaliveCtl
  | endOfStreamCtl
  | unknownCtl (t : String)
  | invalidJsonText
  | binaryFrame

/-- `synthesize_chunk` (tts-api/main.py lines 344-382): runs the external
synthesis, converts to int16 bytes; `except Exception: return None` — the
error is logged server-side and never reaches the client. -/

def synthesize_chunk (synth : String → Except String (List ℚ)) (t : String) :
    Option (List ℤ) :=
  match synth t with
  | Except.ok arr => some (arr.map encode_audio)
  | Except.error _ => none

/-- One iteration of the TTS server loop: text is appended to the buffer,
every complete sentence (all but the last piece of `split_into_sentences`)
with non-empty `strip()` is synthesized and sent if synthesis returned
audio, and the last piece becomes the new buffer; `end_of_stream`
synthesizes the stripped remaining buffer (if non-empty), sends `complete`,
and breaks; `keepalive`, unknown JSON, invalid JSON and binary frames are
logged and skipped. -/

def ttsSrvStep (synth : String → Except String (List ℚ)) (buf : List Char) :
    TtsInFrame → List TtsSrvOut × List Char × Bool
  | TtsInFrame.textJson t =>
      let buf2 := buf ++ t.data
      let sentences := split_into_sentences buf2
      let outs := sentences.dropLast.filterMap fun s =>
        let st := stripS (String.mk s)
        if st = "" then none
        else (synthesize_chunk synth st).map TtsSrvOut.audioOut
      (outs, sentences.getLastD [], false)
  | TtsInFrame.keepaliveCtl => ([], buf, false)
  | TtsInFrame.endOfStreamCtl =>
      let st := stripS (String.mk buf)
      let outs := if st = "" then [] else
        match synthesize_chunk synth st with
        | some a => [TtsSrvOut.audioOut a]
        | none => []
      (outs ++ [TtsSrvOut.completeMsg], buf, true)
  | TtsInFrame.unknownCtl _ => ([], buf, false)
  | TtsInFrame.invalidJsonText => ([], buf, false)
  | TtsInFrame.binaryFrame => ([], buf, false)

/-- The TTS server receive loop over a list of incoming frames. -/

def ttsSrvLoop (synth : String → Except String (List ℚ)) (buf : List Char) :
    List TtsInFrame → List TtsSrvOut
  | [] => []
  | f :: rest =>
      let r := ttsSrvStep synth buf f
      if r.2.2 then r.1 else r.1 ++ ttsSrvLoop synth r.2.1 rest

/-- The whole TTS handler after a good config: the `ready` message (carrying
the server `SAMPLE_RATE`), the loop output, and the
`websocket.close(code=1000)` of the `finally:` block. -/

def ttsSrvHandler (synth : String → Except String (List ℚ))
    (sampleRate : ℕ) (frames : List TtsInFrame) : List TtsSrvOut × ℕ :=
  ((TtsSrvOut.ready sampleRate) :: ttsSrvLoop synth [] frames, 1000)

/-! ## TTS client flags and keepalive (`tts.py`, class `ChunkedStream`)

The flags `_closed`, `_input_ended` and the WebSocket open state, with the
events that touch them: the keepalive timer firing (the 5-second
`asyncio.sleep` of `_keepalive_loop`, lines 305-326), `aclose()` (lines
328-371), the `finally:` of `_run` (line 213), and the socket closing.  Each
event returns the new state and the number of keepalive messages written. -/


structure TtsClientState where
  closed : Bool
  inputEnded : Bool
  wsOpen : Bool
deriving DecidableEq

/-- Fresh `ChunkedStream` after connecting: `_closed = False`,
`_input_ended = False`, socket open. -/

def ttsClientInit : TtsClientState := ⟨false, false, true⟩

inductive TtsClientEvent where
  | tick
  | acloseEv
  | runEnd
  | wsClose

/-- `_keepalive_loop` sends `{"type": "keepalive"}` at a tick iff
`not self._closed`, `self._ws and not self._ws.closed`, and
`not self._input_ended`; `aclose` returns early when already closed,
otherwise sets `_closed = True` and (via its `if not self._input_ended`
branch) leaves `_input_ended = True`; the `finally:` of `_run` sets
`_closed = True`. -/

def ttsClientStep (s : TtsClientState) :
    TtsClientEvent → TtsClientState × ℕ
  | TtsClientEvent.tick =>
      (s, if s.closed = false ∧ s.wsOpen = true ∧ s.inputEnded = false then 1 else 0)
  | TtsClientEvent.acloseEv =>
      (if s.closed then s else { s with closed := true, inputEnded := true }, 0)
  | TtsClientEvent.runEnd => ({ s with closed := true }, 0)
  | TtsClientEvent.wsClose => ({ s with wsOpen := false }, 0)

/-- Run a sequence of events, returning the final state and the total number
of keepalive messages sent. -/

def ttsClientRun (s : TtsClientState) : List TtsClientEvent → TtsClientState × ℕ
  | [] => (s, 0)
  | e :: es =>
      let r := ttsClientStep s e
      let r2 := ttsClientRun r.1 es
      (r2.1, r.2 + r2.2)

/-- A concrete always-succeeding inference stub for concrete evaluations. -/

def transcribeConstT : ℕ → List ℕ → Except String (List Segment) :=
  fun _ _ => Except.ok [⟨"t", 0, 0, 0⟩]

/-- A concrete always-raising inference stub (`str(e) = "boom"`). -/

def transcribeBoomT : ℕ → List ℕ → Except String (List Segment) :=
  fun _ _ => Except.error "boom"

/-- A concrete always-succeeding synthesis stub returning one half-scale
sample. -/

def synthHalf : String → Except String (List ℚ) :=
  fun _ => Except.ok [1/2]

/-- A concrete always-raising synthesis stub (`str(e) = "boom"`). -/

def synthBoom : String → Except String (List ℚ) :=
  fun _ => Except.error "boom"

/-- A separator matched by `[.!?]+\s+`: a non-empty run of sentence
terminators followed by a non-empty run of whitespace. -/

def SepRun (sep : List Char) : Prop :=
  ∃ ts ws, sep = ts ++ ws ∧ ts ≠ [] ∧ ws ≠ [] ∧
    (∀ c ∈ ts, isTermChar c = true) ∧ (∀ c ∈ ws, isSpaceChar c = true)

/-- A piece that ends in one or more sentence terminators followed by
whitespace. -/

def EndsSep (x : List Char) : Prop :=
  ∃ a ts ws, x = a ++ ts ++ ws ∧ ts ≠ [] ∧ ws ≠ [] ∧
    (∀ c ∈ ts, isTermChar c = true) ∧ (∀ c ∈ ws, isSpaceChar c = true)

/-- The shape of `re.split` output with a capturing group: pieces and
matched separators strictly alternating, beginning and ending with a
piece. -/

inductive SplitShape : List (List Char) → Prop
  | single (t : List Char) : SplitShape [t]
  | pair (t sep : List Char) (rest : List (List Char)) :
      SepRun sep → SplitShape rest → SplitShape (t :: sep :: rest)

/-! ## Theorems -/

theorem truncQ_sub_lt_one (q : ℚ) : |q - truncQ q| < 1 := by
  unfold truncQ
  split
  · have h1 := Int.floor_le q
    have h2 := Int.lt_floor_add_one q
    rw [abs_lt]
    constructor <;> linarith
  · have h1 := Int.le_ceil q
    have h2 := Int.ceil_lt_add_one q
    rw [abs_lt]
    constructor <;> linarith

/-- Claim C1 (code_bug evidence): Two calls to `end_input()` on a fresh
`SpeechStream` enqueue two `None` sentinels, and the scenario of
`test_fixes.py::test_sentinel_only_queued_once` (push 3 frames, call
`end_input()` three times) leaves 6 items on the queue, not the 3 + 1 the
repository's own test asserts: `end_input` has no `_input_ended` guard. -/

theorem sttClient_end_input_duplicates_sentinel :
    countSentinels (end_input (end_input (sttClientInit ℕ))).queue = 2 ∧
    (end_input (end_input (end_input
      (push_frame (push_frame (push_frame (sttClientInit ℕ) 1) 2) 3)))).queue.length
      = 6 := by
  constructor <;> rfl

/-- Claim C8 (code_bug evidence): After `aclose()` a push is rejected (queue
unchanged), but after `end_input()` alone a push is still accepted: the queue
grows from `[None]` to `[None, frame]`, contradicting
`test_fixes.py::test_push_frame_after_end_input`. -/

theorem sttClient_push_after_end_input_accepted :
    (push_frame (end_input (sttClientInit ℕ)) 7).queue = [none, some 7] ∧
    (push_frame (sttAclose (sttClientInit ℕ)) 7).queue
      = (sttAclose (sttClientInit ℕ)).queue := by
  constructor <;> rfl

/-- Claim C6 (counterexample): At the sample x = 9999/10000 the round trip
`decode_audio (encode_audio x)` misses x by more than 1/32768: the encoder
scales by 32767 (`audio_arr * 32767`) while the decoder divides by 32768.0,
so the quantization error is not bounded by one decoder step. -/

theorem codec_round_trip_error_exceeds_claim :
    ¬ |((9999 : ℚ) / 10000) - decode_audio (encode_audio (9999 / 10000))|
        ≤ 1 / 32768 := by
  have henc : encode_audio ((9999 : ℚ) / 10000) = 32763 := by
    unfold encode_audio truncQ
    norm_num
  rw [henc]
  unfold decode_audio
  rw [abs_of_pos (by norm_num)]
  norm_num

/-- Claim C6 amended: for every sample x in [-1, 1] the round trip
`decode_audio (encode_audio x)`, i.e. truncate(x * 32767) / 32768, is within
2/32768 of x (the 1/32768 bound of the claim fails because encode scales by
32767 while decode divides by 32768). -/

theorem codec_round_trip_within_two_steps (x : ℚ)
    (h1 : -1 ≤ x) (h2 : x ≤ 1) :
    |x - decode_audio (encode_audio x)| < 2 / 32768 := by
  have hfrac : |x * 32767 - truncQ (x * 32767)| < 1 := truncQ_sub_lt_one (x * 32767)
  have hx : |x| ≤ 1 := abs_le.mpr ⟨h1, h2⟩
  have hrw : x - decode_audio (encode_audio x)
      = ((x * 32767 - truncQ (x * 32767)) + x) / 32768 := by
    unfold decode_audio encode_audio
    ring
  rw [hrw, abs_div, abs_of_pos (show (0:ℚ) < 32768 by norm_num)]
  rw [div_lt_div_iff₀ (by norm_num) (by norm_num)]
  have habs : |(x * 32767 - truncQ (x * 32767)) + x|
      ≤ |x * 32767 - truncQ (x * 32767)| + |x| := abs_add _ _
  nlinarith [habs, hfrac, hx]

/-- Claim C6 witness: the amended round-trip bound instantiated at x = 1/2. -/

theorem codec_round_trip_within_two_steps_witness :
    -1 ≤ (1/2 : ℚ) ∧ (1/2 : ℚ) ≤ 1 ∧
    |(1/2 : ℚ) - decode_audio (encode_audio (1/2))| < 2 / 32768 :=
  ⟨by norm_num, by norm_num,
    codec_round_trip_within_two_steps (1/2) (by norm_num) (by norm_num)⟩

/-- Claim C2 (counterexample): The STT client send loop, fed one chunk and then the
end sentinel, writes only the binary chunk: no `end_of_stream` control
message is ever written to the wire, contrary to the claim. -/

theorem sttSendLoop_writes_no_end_of_stream :
    sttSendLoop [some 1, none] = [SttWire.binary 1] ∧
    SttWire.endOfStream ∉ sttSendLoop [some (1 : ℕ), none] := by
  constructor
  · rfl
  · decide

/-- Claim C2 amended: on dequeuing the end sentinel the TTS client send loop writes
the `end_of_stream` control message and exits, while the STT client send loop
exits without writing any end-of-stream message; in both loops, every real
chunk dequeued before the sentinel is written to the wire, in order, before
the loop exits. -/

theorem sendLoop_end_of_stream_emission {Frame : Type}
    (chunks : List Frame) (texts : List String)
    (rest : List (Option Frame)) (rest2 : List (Option String)) :
    sttSendLoop (chunks.map some ++ none :: rest)
      = chunks.map SttWire.binary ∧
    ttsSendLoop (texts.map some ++ none :: rest2)
      = texts.map TtsWire.textMsg ++ [TtsWire.endOfStream] := by
  constructor
  · induction chunks with
    | nil => rfl
    | cons c cs ih => simpa [sttSendLoop] using ih
  · induction texts with
    | nil => rfl
    | cons t ts ih => simpa [ttsSendLoop] using ih

/-- Claim C4 (counterexample): The STT client receive loop does not exit on
`session_ended`: a `final` message arriving after `session_ended` is still
decoded and placed on the inbound queue, and no sentinel is placed at the
`session_ended` itself — the claimed behaviour would yield `[none]` here. -/

theorem sttRecvLoop_ignores_session_ended :
    sttRecvLoop [SttServerMsg.sessionEnded, SttServerMsg.final "x" 1]
      = [some ⟨"x", 1⟩, none] ∧
    sttRecvLoop [SttServerMsg.sessionEnded, SttServerMsg.final "x" 1]
      ≠ [none] := by
  constructor
  · rfl
  · intro h
    simp [sttRecvLoop] at h

/-- Claim C4 amended: the client receive loops place payload-bearing messages
(non-empty-text `final` for STT, `audio` for TTS) on the inbound queue in
arrival order; on `error` (both clients) and on `complete` (TTS) they place
the terminal `None` sentinel and exit; the STT client ignores
`session_ended` and places its sentinel when the connection closes, so after
a list of `final` messages followed by `session_ended` and the connection
closing, iteration yields exactly those results and then terminates. -/

theorem recvLoop_termination
    (finals : List (String × ℚ)) (hne : ∀ p ∈ finals, p.1 ≠ "")
    (audios : List (List ℤ)) (rest : List TtsServerMsg) (m : String)
    (rest2 : List SttServerMsg) :
    sttRecvLoop (finals.map (fun p => SttServerMsg.final p.1 p.2)
        ++ [SttServerMsg.sessionEnded])
      = finals.map (fun p => some ⟨p.1, p.2⟩) ++ [none] ∧
    ttsRecvLoop (audios.map TtsServerMsg.audio ++ TtsServerMsg.complete :: rest)
      = ((audios.enumFrom 0).map fun p => some ⟨p.1, p.2⟩) ++ [none] ∧
    sttRecvLoop (SttServerMsg.errorMsg m :: rest2) = [none] := by
  refine ⟨?_, ?_, rfl⟩
  · induction finals with
    | nil => rfl
    | cons p ps ih =>
        have hp : p.1 ≠ "" := hne p (List.mem_cons_self p ps)
        simp only [List.map_cons, List.cons_append, sttRecvLoop, if_neg hp]
        simpa using ih (fun q hq => hne q (List.mem_cons_of_mem p hq))
  · show ttsRecvLoopAux 0 _ = _
    have key : ∀ (as : List (List ℤ)) (n : ℕ),
        ttsRecvLoopAux n (as.map TtsServerMsg.audio ++ TtsServerMsg.complete :: rest)
          = ((as.enumFrom n).map fun p => some ⟨p.1, p.2⟩) ++ [none] := by
      intro as
      induction as with
      | nil => intro n; rfl
      | cons a tl ih =>
          intro n
          simp only [List.map_cons, List.cons_append, ttsRecvLoopAux, List.enumFrom]
          simpa using ih (n + 1)
    exact key audios 0

/-- Claim C4 witness: the amended receive-loop behaviour at the concrete scenario
of three `final` messages then `session_ended` (and one audio frame then
`complete` on the TTS side). -/

theorem recvLoop_termination_witness :
    (∀ p ∈ [("a", (1:ℚ)), ("b", 2), ("c", 3)], p.1 ≠ "") ∧
    (sttRecvLoop [SttServerMsg.final "a" 1, SttServerMsg.final "b" 2,
        SttServerMsg.final "c" 3, SttServerMsg.sessionEnded]
      = [some ⟨"a", 1⟩, some ⟨"b", 2⟩, some ⟨"c", 3⟩, none] ∧
     ttsRecvLoop [TtsServerMsg.audio [5], TtsServerMsg.complete]
      = [some ⟨0, [5]⟩, none] ∧
     sttRecvLoop [SttServerMsg.errorMsg "e"] = [none]) := by
  constructor
  · decide
  · have h := recvLoop_termination [("a", (1:ℚ)), ("b", 2), ("c", 3)]
      (by decide) [[5]] [] "e" []
    simpa using h

/-- Claim C3 (code_bug evidence): on the frame sequence binary, keepalive,
binary, end_of_stream, the `skills-reference` STT server handles the
interleaved text control frames (keepalive skipped, end_of_stream flushed
and acknowledged with `session_ended`), while the top-level server — reading
with `receive_bytes()` — turns each text frame into a raised `KeyError`
answered by an error message: neither control frame is handled and no
`session_ended` is ever sent. -/

theorem server_frame_demux_divergence :
    refSttLoop transcribeConstT 1 []
      [SttInFrame.binary [0, 0], SttInFrame.keepaliveCtl,
       SttInFrame.binary [0, 0], SttInFrame.endOfStreamCtl]
      = [SttSrvOut.finalMsg "t" 0 0 0, SttSrvOut.finalMsg "t" 0 0 0,
         SttSrvOut.sessionEnded] ∧
    oldSttLoop transcribeConstT 1 []
      [SttInFrame.binary [0, 0], SttInFrame.keepaliveCtl,
       SttInFrame.binary [0, 0], SttInFrame.endOfStreamCtl]
      = [SttSrvOut.errorOut receiveBytesKeyError, SttSrvOut.finalMsg "t" 0 0 0,
         SttSrvOut.errorOut receiveBytesKeyError] ∧
    SttSrvOut.sessionEnded ∉ oldSttLoop transcribeConstT 1 []
      [SttInFrame.binary [0, 0], SttInFrame.keepaliveCtl,
       SttInFrame.binary [0, 0], SttInFrame.endOfStreamCtl] := by
  refine ⟨rfl, rfl, ?_⟩
  decide

/-- Claim C5: on `end_of_stream` the reference STT server flushes the
remaining buffer (when non-empty) through one inference call at
`beam_size=5` — while interim windows use `beam_size=3` — emits the
resulting `final` messages, then `session_ended`, and exits the loop
(subsequent frames are never processed); the TTS server synthesizes the
stripped remaining buffer, emits `complete`, and exits; both handlers close
with code 1000. -/

theorem server_end_of_stream_drain
    (transcribe : ℕ → List ℕ → Except String (List Segment))
    (synth : String → Except String (List ℚ))
    (sr sampleRate : ℕ) (buf data : List ℕ) (tbuf : List Char)
    (segs isegs : List Segment)
    (rest rest3 : List SttInFrame) (rest2 : List TtsInFrame)
    (h : transcribe 5 buf = Except.ok segs)
    (h2 : bytesPerChunk sr ≤ (buf ++ data).length)
    (h3 : transcribe 3 ((buf ++ data).take (bytesPerChunk sr)) = Except.ok isegs) :
    refSttLoop transcribe sr buf (SttInFrame.endOfStreamCtl :: rest)
      = (if 0 < buf.length then segs.map finalOf else [])
        ++ [SttSrvOut.sessionEnded] ∧
    refSttLoop transcribe sr buf (SttInFrame.binary data :: rest3)
      = isegs.map finalOf
        ++ refSttLoop transcribe sr
            ((buf ++ data).drop (bytesPerChunk sr - overlapBytes sr)) rest3 ∧
    ttsSrvLoop synth tbuf (TtsInFrame.endOfStreamCtl :: rest2)
      = (if stripS (String.mk tbuf) = "" then []
         else
           match synthesize_chunk synth (stripS (String.mk tbuf)) with
           | some a => [TtsSrvOut.audioOut a]
           | none => []) ++ [TtsSrvOut.completeMsg] ∧
    (refSttHandler transcribe sr (SttInFrame.endOfStreamCtl :: rest)).2 = 1000 ∧
    (ttsSrvHandler synth sampleRate rest2).2 = 1000 := by
  refine ⟨?_, ?_, ?_, rfl, rfl⟩
  · by_cases hb : 0 < buf.length
    · simp [refSttLoop, refSttStep, hb, h]
    · simp [refSttLoop, refSttStep, hb]
  · have h2b : bytesPerChunk sr ≤ buf.length + data.length := by
      simpa using h2
    simp [refSttLoop, refSttStep, h2b, h3]
  · by_cases ht : stripS (String.mk tbuf) = ""
    · simp [ttsSrvLoop, ttsSrvStep, ht]
    · cases hc : synthesize_chunk synth (stripS (String.mk tbuf)) with
      | none => simp [ttsSrvLoop, ttsSrvStep, ht, hc]
      | some a => simp [ttsSrvLoop, ttsSrvStep, ht, hc]

/-- Claim C5 witness: the drain behaviour at a concrete session (sr = 1,
buffer `[0]`, one window-filling binary frame, a concrete synthesis stub and
text buffer). -/

theorem server_end_of_stream_drain_witness :
    (transcribeConstT 5 [0] = Except.ok [⟨"t", 0, 0, 0⟩] ∧
     bytesPerChunk 1 ≤ (([0] : List ℕ) ++ [0, 0, 0, 0]).length ∧
     transcribeConstT 3 ((([0] : List ℕ) ++ [0, 0, 0, 0]).take (bytesPerChunk 1))
       = Except.ok [⟨"t", 0, 0, 0⟩]) ∧
    (refSttLoop transcribeConstT 1 [0] [SttInFrame.endOfStreamCtl]
      = (if 0 < ([0] : List ℕ).length
         then [(⟨"t", 0, 0, 0⟩ : Segment)].map finalOf else [])
        ++ [SttSrvOut.sessionEnded] ∧
     refSttLoop transcribeConstT 1 [0] [SttInFrame.binary [0, 0, 0, 0]]
      = [(⟨"t", 0, 0, 0⟩ : Segment)].map finalOf
        ++ refSttLoop transcribeConstT 1
            ((([0] : List ℕ) ++ [0, 0, 0, 0]).drop (bytesPerChunk 1 - overlapBytes 1)) [] ∧
     ttsSrvLoop synthHalf ("Hi".data) [TtsInFrame.endOfStreamCtl]
      = (if stripS (String.mk ("Hi".data)) = "" then []
         else
           match synthesize_chunk synthHalf (stripS (String.mk ("Hi".data))) with
           | some a => [TtsSrvOut.audioOut a]
           | none => []) ++ [TtsSrvOut.completeMsg] ∧
     (refSttHandler transcribeConstT 1 [SttInFrame.endOfStreamCtl]).2 = 1000 ∧
     (ttsSrvHandler synthHalf 24000 []).2 = 1000) := by
  refine ⟨⟨rfl, by decide, rfl⟩, ?_⟩
  exact server_end_of_stream_drain transcribeConstT synthHalf 1 24000 [0]
    [0, 0, 0, 0] ("Hi".data) [⟨"t", 0, 0, 0⟩] [⟨"t", 0, 0, 0⟩] [] [] []
    rfl (by decide) rfl

/-- Claim C7 (counterexample): when synthesis of a complete sentence raises
(`synthBoom`), the TTS server emits nothing at all for that window — no
`error` control message reaches the client (the exception dies inside
`synthesize_chunk`) — and the session simply continues: a following
`end_of_stream` still completes normally. -/

theorem tts_window_error_silent :
    ttsSrvLoop synthBoom [] [TtsInFrame.textJson "Hi there. "] = [] ∧
    ttsSrvLoop synthBoom []
        [TtsInFrame.textJson "Hi there. ", TtsInFrame.endOfStreamCtl]
      = [TtsSrvOut.completeMsg] := by
  constructor <;> rfl

/-- Claim C7 amended: when the STT inference call for one buffered window
raises, the server emits an `error` control message carrying the exception's
message and continues the loop (the connection is not closed); when TTS
synthesis of one window raises, `synthesize_chunk` swallows the exception
and returns `None`, so the handler emits nothing for that window — in
particular never an `error` message — and also continues. -/

theorem window_error_recovery
    (transcribe : ℕ → List ℕ → Except String (List Segment))
    (sr : ℕ) (buf data : List ℕ) (e : String) (rest : List SttInFrame)
    (synth : String → Except String (List ℚ)) (tbuf : List Char)
    (t m : String)
    (h2 : bytesPerChunk sr ≤ (buf ++ data).length)
    (h3 : transcribe 3 ((buf ++ data).take (bytesPerChunk sr)) = Except.error e) :
    refSttLoop transcribe sr buf (SttInFrame.binary data :: rest)
      = SttSrvOut.errorOut e
        :: refSttLoop transcribe sr
            ((buf ++ data).drop (bytesPerChunk sr - overlapBytes sr)) rest ∧
    TtsSrvOut.errorOut m ∉ (ttsSrvStep synth tbuf (TtsInFrame.textJson t)).1 ∧
    (ttsSrvStep synth tbuf (TtsInFrame.textJson t)).2.2 = false := by
  refine ⟨?_, ?_, rfl⟩
  · have h2b : bytesPerChunk sr ≤ buf.length + data.length := by
      simpa using h2
    simp [refSttLoop, refSttStep, h2b, h3]
  · intro hmem
    simp only [ttsSrvStep, List.mem_filterMap] at hmem
    obtain ⟨s, _, heq⟩ := hmem
    by_cases hst : stripS (String.mk s) = ""
    · simp [hst] at heq
    · simp only [hst, if_false, ite_false] at heq
      cases hc : synthesize_chunk synth (stripS (String.mk s)) with
      | none => rw [hc] at heq; simp at heq
      | some a => rw [hc] at heq; simp at heq

/-- Claim C7 witness: the amended error-recovery behaviour at a concrete
failing inference (`transcribeBoomT`, message "boom") and a concrete text
window. -/

theorem window_error_recovery_witness :
    (bytesPerChunk 1 ≤ (([] : List ℕ) ++ [0, 0, 0, 0]).length ∧
     transcribeBoomT 3 ((([] : List ℕ) ++ [0, 0, 0, 0]).take (bytesPerChunk 1))
       = Except.error "boom") ∧
    (refSttLoop transcribeBoomT 1 [] [SttInFrame.binary [0, 0, 0, 0]]
      = SttSrvOut.errorOut "boom"
        :: refSttLoop transcribeBoomT 1
            ((([] : List ℕ) ++ [0, 0, 0, 0]).drop (bytesPerChunk 1 - overlapBytes 1)) [] ∧
     TtsSrvOut.errorOut "oops"
       ∉ (ttsSrvStep synthBoom [] (TtsInFrame.textJson "Hi there. ")).1 ∧
     (ttsSrvStep synthBoom [] (TtsInFrame.textJson "Hi there. ")).2.2 = false) :=
  ⟨⟨by decide, rfl⟩,
    window_error_recovery transcribeBoomT 1 [] [0, 0, 0, 0] "boom" []
      synthBoom [] "Hi there. " "oops" (by decide) rfl⟩

/-- Claim C9: a keepalive is written at a timer tick exactly when the
session is not closed, the socket is open, and input has not ended; and once
`_input_ended` is true, no event sequence can ever produce another keepalive
(no event resets the flag, and the tick guard checks it). -/

theorem keepalive_stops_after_input_ended (s : TtsClientState)
    (es : List TtsClientEvent) :
    ((ttsClientStep s TtsClientEvent.tick).2 = 1
      ↔ s.closed = false ∧ s.wsOpen = true ∧ s.inputEnded = false) ∧
    (s.inputEnded = true → (ttsClientRun s es).2 = 0) := by
  constructor
  · simp [ttsClientStep]
  · intro h
    induction es generalizing s with
    | nil => rfl
    | cons e es ih =>
        have hm : (ttsClientStep s e).1.inputEnded = true := by
          cases e <;> simp [ttsClientStep, h]
          split <;> simp [h]
        have htick : (ttsClientStep s e).2 = 0 := by
          cases e <;> simp [ttsClientStep, h]
        simp [ttsClientRun, htick, ih _ hm]

/-- Claim C9 witness: after `aclose()` (which sets `_input_ended`), two
further keepalive ticks send nothing. -/

theorem keepalive_stops_after_input_ended_witness :
    (ttsClientStep ttsClientInit TtsClientEvent.acloseEv).1.inputEnded = true ∧
    (ttsClientRun (ttsClientStep ttsClientInit TtsClientEvent.acloseEv).1
        [TtsClientEvent.tick, TtsClientEvent.tick]).2 = 0 :=
  ⟨rfl, (keepalive_stops_after_input_ended
      (ttsClientStep ttsClientInit TtsClientEvent.acloseEv).1
      [TtsClientEvent.tick, TtsClientEvent.tick]).2 rfl⟩

theorem matchSep_eq_some {s sep r2 : List Char}
    (h : matchSep s = some (sep, r2)) :
    s = sep ++ r2 ∧ SepRun sep ∧ 2 ≤ sep.length := by
  unfold matchSep at h
  by_cases h1 : (s.takeWhile isTermChar).isEmpty
  · simp [h1] at h
  · by_cases h2 : ((s.dropWhile isTermChar).takeWhile isSpaceChar).isEmpty
    · simp [h1, h2] at h
    · simp only [h1, h2, Bool.false_eq_true, if_false, Option.some.injEq,
        Prod.mk.injEq] at h
      obtain ⟨hsep, hr2⟩ := h
      have hts : s.takeWhile isTermChar ≠ [] := by
        simpa [List.isEmpty_iff] using h1
      have hws : (s.dropWhile isTermChar).takeWhile isSpaceChar ≠ [] := by
        simpa [List.isEmpty_iff] using h2
      have hs1 : s = s.takeWhile isTermChar ++ s.dropWhile isTermChar :=
        (List.takeWhile_append_dropWhile ..).symm
      have hs2 : s.dropWhile isTermChar
          = (s.dropWhile isTermChar).takeWhile isSpaceChar
            ++ (s.dropWhile isTermChar).dropWhile isSpaceChar :=
        (List.takeWhile_append_dropWhile ..).symm
      refine ⟨?_, ?_, ?_⟩
      · rw [← hsep, ← hr2, List.append_assoc, ← hs2]
        exact hs1
      · refine ⟨s.takeWhile isTermChar,
          (s.dropWhile isTermChar).takeWhile isSpaceChar,
          hsep.symm, hts, hws, ?_, ?_⟩
        · intro c hc
          exact List.mem_takeWhile_imp hc
        · intro c hc
          exact List.mem_takeWhile_imp hc
      · rw [← hsep, List.length_append]
        have l1 : 1 ≤ (s.takeWhile isTermChar).length :=
          List.length_pos.mpr hts
        have l2 : 1 ≤ ((s.dropWhile isTermChar).takeWhile isSpaceChar).length :=
          List.length_pos.mpr hws
        omega

theorem matchSep_nil : matchSep [] = none := rfl

theorem reSplitGo_ne_nil (fuel : ℕ) (acc s : List Char) :
    reSplitGo fuel acc s ≠ [] := by
  match fuel, acc, s with
  | _, acc, [] => simp [reSplitGo]
  | 0, acc, c :: rest => simp [reSplitGo]
  | fuel + 1, acc, c :: rest =>
      unfold reSplitGo
      cases h : matchSep (c :: rest) with
      | none => exact reSplitGo_ne_nil fuel (c :: acc) rest
      | some p => simp

theorem reSplitGo_join (fuel : ℕ) (acc s : List Char)
    (hf : s.length ≤ fuel) :
    (reSplitGo fuel acc s).flatten = acc.reverse ++ s := by
  induction fuel generalizing acc s with
  | zero =>
      cases s with
      | nil => simp [reSplitGo]
      | cons c rest => simp at hf
  | succ n ih =>
      cases s with
      | nil => simp [reSplitGo]
      | cons c rest =>
          have hr : rest.length ≤ n := by
            simp at hf
            omega
          unfold reSplitGo
          cases h : matchSep (c :: rest) with
          | none =>
              rw [ih (c :: acc) rest hr]
              simp
          | some p =>
              obtain ⟨sep, r2⟩ := p
              obtain ⟨heq, _, hlen⟩ := matchSep_eq_some h
              have hr2 : r2.length ≤ n := by
                have := congrArg List.length heq
                simp [List.length_append] at this hf
                omega
              simp only [List.flatten]
              rw [ih [] r2 hr2]
              simp [heq]

theorem reSplitGo_shape (fuel : ℕ) (acc s : List Char)
    (hf : s.length ≤ fuel) :
    SplitShape (reSplitGo fuel acc s) := by
  induction fuel generalizing acc s with
  | zero =>
      cases s with
      | nil => exact SplitShape.single _
      | cons c rest => simp at hf
  | succ n ih =>
      cases s with
      | nil => exact SplitShape.single _
      | cons c rest =>
          have hr : rest.length ≤ n := by
            simp at hf
            omega
          unfold reSplitGo
          cases h : matchSep (c :: rest) with
          | none => exact ih (c :: acc) rest hr
          | some p =>
              obtain ⟨sep, r2⟩ := p
              obtain ⟨heq, hrun, hlen⟩ := matchSep_eq_some h
              have hr2 : r2.length ≤ n := by
                have := congrArg List.length heq
                simp [List.length_append] at this hf
                omega
              exact SplitShape.pair _ _ _ hrun (ih [] r2 hr2)

theorem reSplitGo_last_no_sep (fuel : ℕ) (acc s : List Char)
    (hf : s.length ≤ fuel)
    (hacc : ∀ n, n < acc.length → matchSep (acc.reverse.drop n ++ s) = none) :
    ∀ d n, matchSep (((reSplitGo fuel acc s).getLastD d).drop n) = none := by
  induction fuel generalizing acc s with
  | zero =>
      cases s with
      | nil =>
          intro d n
          simp only [reSplitGo, List.getLastD_cons, List.getLastD_nil]
          by_cases hn : n < acc.length
          · simpa using hacc n hn
          · rw [List.drop_eq_nil_of_le (by simpa using Nat.le_of_not_lt hn)]
            exact matchSep_nil
      | cons c rest => simp at hf
  | succ m ih =>
      cases s with
      | nil =>
          intro d n
          simp only [reSplitGo, List.getLastD_cons, List.getLastD_nil]
          by_cases hn : n < acc.length
          · simpa using hacc n hn
          · rw [List.drop_eq_nil_of_le (by simpa using Nat.le_of_not_lt hn)]
            exact matchSep_nil
      | cons c rest =>
          have hr : rest.length ≤ m := by
            simp at hf
            omega
          unfold reSplitGo
          cases h : matchSep (c :: rest) with
          | none =>
              refine ih (c :: acc) rest hr ?_
              intro k hk
              simp only [List.length_cons] at hk
              have hsplit : ((c :: acc).reverse).drop k
                  = acc.reverse.drop k ++ List.drop (k - acc.reverse.length) [c] := by
                rw [List.reverse_cons, List.drop_append_eq_append_drop]
              by_cases hklt : k < acc.length
              · have h0 : k - acc.reverse.length = 0 := by
                  simp only [List.length_reverse]
                  omega
                rw [hsplit, h0, List.drop_zero, List.append_assoc,
                  List.singleton_append]
                exact hacc k hklt
              · have hkeq : k = acc.length := by omega
                have h0 : k - acc.reverse.length = 0 := by
                  simp only [List.length_reverse]
                  omega
                have h1 : acc.reverse.drop k = [] :=
                  List.drop_eq_nil_of_le (by simpa using hkeq.ge)
                rw [hsplit, h0, List.drop_zero, h1, List.nil_append,
                  List.singleton_append]
                exact h
          | some p =>
              obtain ⟨sep, r2⟩ := p
              obtain ⟨heq, _, hlen⟩ := matchSep_eq_some h
              have hr2 : r2.length ≤ m := by
                have := congrArg List.length heq
                simp [List.length_append] at this hf
                omega
              intro d n
              simp only [List.getLastD_cons]
              exact ih [] r2 hr2 (by intro k hk; simp at hk) sep n

theorem recombinePairs_flatten (l : List (List Char)) :
    (recombinePairs l).flatten = l.flatten := by
  match l with
  | t :: sep :: rest =>
      simp [recombinePairs, recombinePairs_flatten rest, List.append_assoc]
  | [t] => rfl
  | [] => rfl

theorem recombinePairs_ne_nil {l : List (List Char)} (h : SplitShape l) :
    recombinePairs l ≠ [] := by
  induction h with
  | single t => simp [recombinePairs]
  | pair t sep rest hrun hsh ih => simp [recombinePairs]

theorem recombinePairs_getLastD {l : List (List Char)} (h : SplitShape l) :
    ∀ d d', (recombinePairs l).getLastD d = l.getLastD d' := by
  induction h with
  | single t => intro d d'; rfl
  | pair t sep rest hrun hsh ih =>
      intro d d'
      show ((t ++ sep) :: recombinePairs rest).getLastD d = _
      rw [List.getLastD_cons, List.getLastD_cons, List.getLastD_cons]
      exact ih (t ++ sep) sep

theorem recombinePairs_dropLast_endsSep {l : List (List Char)}
    (h : SplitShape l) :
    ∀ x ∈ (recombinePairs l).dropLast, EndsSep x := by
  induction h with
  | single t => simp [recombinePairs]
  | pair t sep rest hrun hsh ih =>
      intro x hx
      have hne := recombinePairs_ne_nil hsh
      rw [show recombinePairs (t :: sep :: rest)
            = (t ++ sep) :: recombinePairs rest from rfl,
        List.dropLast_cons_of_ne_nil hne] at hx
      rcases List.mem_cons.mp hx with hx | hx
      · obtain ⟨ts, ws, hsep, hts, hws, hterm, hspace⟩ := hrun
        exact ⟨t, ts, ws, by rw [hx, hsep, List.append_assoc], hts, hws,
          hterm, hspace⟩
      · exact ih x hx

/-- Claim C10: `split_into_sentences` is lossless and total — on every input
it returns a non-empty list whose concatenation is the input; every element
except possibly the last ends with one or more sentence terminators followed
by whitespace; and the separator pattern `[.!?]+\s+` matches at no position
of the last element, so keeping it as the incomplete fragment loses no
text. -/

theorem sentence_splitter_lossless_total (text : List Char) :
    split_into_sentences text ≠ [] ∧
    (split_into_sentences text).flatten = text ∧
    (∀ x ∈ (split_into_sentences text).dropLast, EndsSep x) ∧
    (∀ n, matchSep (((split_into_sentences text).getLastD []).drop n) = none) := by
  have hshape := reSplitGo_shape text.length [] text le_rfl
  have hne := recombinePairs_ne_nil hshape
  have hsplit : split_into_sentences text
      = recombinePairs (reSplitGo text.length [] text) := by
    unfold split_into_sentences reSplit
    simp only [List.isEmpty_eq_true, hne, if_false, ite_false]
  rw [hsplit]
  refine ⟨hne, ?_, recombinePairs_dropLast_endsSep hshape, ?_⟩
  · rw [recombinePairs_flatten, reSplitGo_join text.length [] text le_rfl]
    simp
  · intro n
    rw [recombinePairs_getLastD hshape [] []]
    exact reSplitGo_last_no_sep text.length [] text le_rfl
      (by intro k hk; simp at hk) [] n

/-- Claim C10 witness: the splitter properties observed on the concrete
input "Ok! Go", whose pieces are "Ok! " (a complete sentence) and "Go" (the
retained fragment). -/

theorem sentence_splitter_lossless_total_witness :
    EndsSep ("Ok! ".data) ∧
    matchSep (((split_into_sentences ("Ok! Go".data)).getLastD []).drop 0)
      = none ∧
    (split_into_sentences ("Ok! Go".data)).flatten = "Ok! Go".data :=
  ⟨(sentence_splitter_lossless_total ("Ok! Go".data)).2.2.1 ("Ok! ".data)
      (by decide),
   (sentence_splitter_lossless_total ("Ok! Go".data)).2.2.2 0,
   (sentence_splitter_lossless_total ("Ok! Go".data)).2.1⟩
